import Mathlib

/-!
Verification of the goodreads-recommender score-aggregation and filtering
pipeline (`goodreads_recommender/services/recommendation_engine.py` and
`goodreads_recommender/entities/book.py`), as a shallow embedding.

Modelling conventions:
- Python `dict` (class `BookScores(dict)`) is an association list
  `List (String × BookScore)` with unique keys and insertion order;
  assignment to an existing key keeps its position, a new key is appended.
- `total_score` is annotated `float` in the source, but every value the
  program ever stores in it is a Python `int`: `_get_users_book_scores` sets
  `total_score=rating` with an integer rating, and `merge` only adds such
  values. All are far below 2^53, where IEEE arithmetic is exact, so the
  field is embedded as `ℤ`. The one true division, in `get_recommendations`,
  is embedded as exact division in `ℚ` of the casts, which agrees with float
  division for these magnitudes.
- Python exceptions are `Except Err`; an uncaught exception is `.error`.
- The HTML/network layer (`DownloadService`, BeautifulSoup) is replaced by
  oracles: a review page is a record of the facts the code inspects
  (private-profile marker, sign-in marker, review rows), supplied by a
  function from user id and page number.
-/

/-- Python exception kinds that the embedded code can raise. -/
inductive Err where
  | notLoggedIn
  | keyError
  | indexError
  | zeroDivision
  deriving DecidableEq, Repr

deriving instance DecidableEq for Except

/-- `BookScore` from recommendation_engine.py: a named tuple
`(total_score: float, number_of_reviews: int)`. -/
structure BookScore where
  totalScore : ℤ
  numberOfReviews : ℤ
  deriving DecidableEq, Repr

/-- `BookScore.merge`: `self.merge(b)` returns
`BookScore(b.total_score + self.total_score, b.number_of_reviews + self.number_of_reviews)`. -/
def BookScore.merge (self other : BookScore) : BookScore :=
  { totalScore := other.totalScore + self.totalScore
    numberOfReviews := other.numberOfReviews + self.numberOfReviews }

/-- `BookScores`: `{ book_id: (total_score, number_of_reviews) }`, a Python
dict, modelled as an insertion-ordered association list with unique keys. -/
abbrev BookScores := List (String × BookScore)

/-- Python `d.get(k)` / `k in d`: lookup of a key in the dict model. -/
def dictLookup : BookScores → String → Option BookScore
  | [], _ => none
  | (k, v) :: rest, key => if k = key then some v else dictLookup rest key

/-- Python `d[k] = v`: overwrite in place if `k` is present (keeping its
position), otherwise append at the end (dicts remember insertion order). -/
def dictSet : BookScores → String → BookScore → BookScores
  | [], k, v => [(k, v)]
  | (k0, v0) :: rest, k, v =>
      if k0 = k then (k, v) :: rest else (k0, v0) :: dictSet rest k v

/-- Python `del d[k]` guarded by `if k in d`: removes the entry for `k`
if present, otherwise leaves the dict unchanged. -/
def dictDelete (d : BookScores) (k : String) : BookScores :=
  d.filter (fun p => !(p.1 = k : Bool))

/-- `BookScores.merge_book_scores`: for each `book_id` of the argument (in its
iteration order), `self[book_id] = book_scores[book_id].merge(self.get(book_id)
or BookScore(0, 0))`. `BookScore(0, 0)` is a non-empty tuple, hence truthy, so
the `or` only replaces a missing key (`None`). -/
def mergeBookScores (self : BookScores) : BookScores → BookScores
  | [] => self
  | (k, v) :: rest =>
      mergeBookScores
        (dictSet self k (BookScore.merge v ((dictLookup self k).getD ⟨0, 0⟩)))
        rest

/-- The sort key used by `get_recommendations`:
`def key(item): return -item[1].number_of_reviews`. -/
def pyKey (item : String × BookScore) : ℤ :=
  -item.2.numberOfReviews

/-- The ordering relation induced by Python's `sorted(self.items(), key=key)`:
ascending in `pyKey`. Python's `sorted` is a stable sort, so it is modelled by
`List.insertionSort keyLe`, whose `orderedInsert` places each element before
the later (already sorted) elements of equal key — the canonical stable sort. -/
def keyLe (a b : String × BookScore) : Prop :=
  pyKey a ≤ pyKey b

instance : DecidableRel keyLe := fun a b =>
  inferInstanceAs (Decidable (pyKey a ≤ pyKey b))

instance : IsTotal (String × BookScore) keyLe :=
  ⟨fun a b => le_total (pyKey a) (pyKey b)⟩

instance : IsTrans (String × BookScore) keyLe :=
  ⟨fun _ _ _ hab hbc => le_trans hab hbc⟩

/-- The dict-comprehension condition of `get_recommendations`:
`book_score.total_score / book_score.number_of_reviews >= minimum_rating`,
as evaluated when `number_of_reviews ≠ 0` (exact rational division; the
program's values are small integers, for which float arithmetic is exact). -/
def passesMinimumRating (minimumRating : ℤ) (item : String × BookScore) : Bool :=
  decide ((minimumRating : ℚ) ≤ (item.2.totalScore : ℚ) / (item.2.numberOfReviews : ℚ))

/-- The dict comprehension of `get_recommendations`, iterating the sorted
items in order: dividing by a zero `number_of_reviews` raises
`ZeroDivisionError` at the first such item; otherwise an item is kept iff
its average is at least `minimum_rating`. -/
def collectRecommendations (minimumRating : ℤ) : BookScores → Except Err BookScores
  | [] => .ok []
  | item :: rest =>
      if item.2.numberOfReviews = 0 then .error .zeroDivision
      else if passesMinimumRating minimumRating item then
        match collectRecommendations minimumRating rest with
        | .error e => .error e
        | .ok r => .ok (item :: r)
      else collectRecommendations minimumRating rest

/-- `BookScores.get_recommendations(minimum_rating=4)`: sort all items by
`-number_of_reviews` (stable), then keep those whose average rating is at
least `minimum_rating`. -/
def getRecommendations (self : BookScores) (minimumRating : ℤ) : Except Err BookScores :=
  collectRecommendations minimumRating (List.insertionSort keyLe self)

/-- `rating_map`: the fixed table from rating label to integer rating. -/
def ratingMap : List (String × ℤ) :=
  [("did not like it", 1),
   ("it was ok", 2),
   ("liked it", 3),
   ("really liked it", 4),
   ("it was amazing", 5)]

/-- One `.bookalike.review` row, reduced to the facts `_get_users_book_scores`
inspects: `ratingSpanTitle` is `none` when `.rating > .value > span` is absent,
`some none` when the span has no `title` attribute, `some (some t)` when the
title is `t`; `bookShowHrefs` are the `href`s of `a[href*="/book/show/"]`. -/
structure ReviewRow where
  ratingSpanTitle : Option (Option String)
  bookShowHrefs : List String
  deriving DecidableEq, Repr

/-- One fetched review-listing page, reduced to the facts the code inspects:
whether `#privateProfile` matches, whether the `meta[name=description]`
stringification contains "Sign in", and the review rows. -/
structure ReviewPage where
  isPrivateProfile : Bool
  signInMarker : Bool
  reviews : List ReviewRow
  deriving Repr

/-- `os.path.basename(s)`: the substring after the last `/` (computed on the
character list so that it evaluates by kernel reduction). -/
def basename (s : String) : String :=
  String.mk (s.data.reverse.takeWhile (fun c => decide (c ≠ '/'))).reverse

/-- `RecommendationEngine._get_rating`: `None` when the rating span or its
title is missing, otherwise `rating_map[title]` — which raises `KeyError`
when the title is not one of the five labels. -/
def getRating (row : ReviewRow) : Except Err (Option ℤ) :=
  match row.ratingSpanTitle with
  | none => .ok none
  | some none => .ok none
  | some (some title) =>
      match ratingMap.lookup title with
      | some rating => .ok (some rating)
      | none => .error .keyError

/-- The row loop of `_get_users_book_scores`: skip rows whose rating is
missing or below `minimum_review_score`; otherwise
`book_scores[basename(hrefs[0])] = BookScore(rating, 1)` (an empty `hrefs`
raises `IndexError`). A repeated book id within the call is overwritten. -/
def processRows (minimumReviewScore : ℤ) :
    List ReviewRow → BookScores → Except Err BookScores
  | [], acc => .ok acc
  | row :: rest, acc =>
      match getRating row with
      | .error e => .error e
      | .ok none => processRows minimumReviewScore rest acc
      | .ok (some rating) =>
          if rating < minimumReviewScore then
            processRows minimumReviewScore rest acc
          else
            match row.bookShowHrefs with
            | [] => .error .indexError
            | href :: _ =>
                processRows minimumReviewScore rest
                  (dictSet acc (basename href) ⟨rating, 1⟩)

/-- `RecommendationEngine.get_review_page_path`. -/
def reviewPagePath (userId : ℕ) (pageNr : ℕ) : String :=
  "review/list/" ++ toString userId ++ "?sort=rating&view=reviews&page=" ++ toString pageNr

/-- The page loop of `_get_users_book_scores` over pages
`pageNr, pageNr+1, ...` (`fuel` pages left). A private profile returns an
empty `BookScores()` immediately, discarding earlier pages; a "Sign in"
marker deletes that page from the cache (second component records the
deleted paths) and raises `Exception("Not logged in")`. -/
def scanPages (pages : ℕ → ReviewPage) (userId : ℕ) (minimumReviewScore : ℤ)
    (pageNr : ℕ) : ℕ → BookScores → Except Err BookScores × List String
  | 0, acc => (.ok acc, [])
  | fuel + 1, acc =>
      let page := pages pageNr
      if page.isPrivateProfile then (.ok [], [])
      else if page.signInMarker then
        (.error .notLoggedIn, [reviewPagePath userId pageNr])
      else
        match processRows minimumReviewScore page.reviews acc with
        | .error e => (.error e, [])
        | .ok acc2 => scanPages pages userId minimumReviewScore (pageNr + 1) fuel acc2

/-- `RecommendationEngine._get_users_book_scores(user_id,
minimum_review_score, num_review_pages_to_scrape)`, over a page oracle.
Returns the outcome together with the cache paths it deleted. -/
def getUsersBookScores (pages : ℕ → ℕ → ReviewPage) (userId : ℕ)
    (minimumReviewScore : ℤ) (numReviewPagesToScrape : ℕ) :
    Except Err BookScores × List String :=
  scanPages (pages userId) userId minimumReviewScore 1 numReviewPagesToScrape []

/-- The loop of `RecommendationEngine._get_book_scores_of_users`: every
exception from one user's scan is caught by `except Exception`, logged, and
that user is skipped; the batch continues with the accumulator unchanged. -/
def getBookScoresOfUsersLoop (pages : ℕ → ℕ → ReviewPage) :
    List ℕ → BookScores → BookScores
  | [], acc => acc
  | userId :: rest, acc =>
      match (getUsersBookScores pages userId 1 2).1 with
      | .ok theirs => getBookScoresOfUsersLoop pages rest (mergeBookScores acc theirs)
      | .error _ => getBookScoresOfUsersLoop pages rest acc

/-- `RecommendationEngine._get_book_scores_of_users(user_ids)`. -/
def getBookScoresOfUsers (pages : ℕ → ℕ → ReviewPage) (userIds : List ℕ) : BookScores :=
  getBookScoresOfUsersLoop pages userIds []

/-- The expansion loop of
`_get_book_scores_of_users_who_read_the_same_books`: for each own book (in
insertion order), skip it if `total_score < 3`, otherwise merge in the
accumulated scores of the users who liked it (`likedOracle` stands for
`Book(book_id, ...).get_user_ids_who_liked_book()`). -/
def expandOwnBooks (pages : ℕ → ℕ → ReviewPage) (likedOracle : String → List ℕ) :
    BookScores → BookScores → BookScores
  | [], acc => acc
  | (bookId, score) :: rest, acc =>
      if score.totalScore < 3 then expandOwnBooks pages likedOracle rest acc
      else
        expandOwnBooks pages likedOracle rest
          (mergeBookScores acc (getBookScoresOfUsers pages (likedOracle bookId)))

/-- The final removal loop: `for book_id in own_book_scores: if book_id in
accumulated_book_scores: del accumulated_book_scores[book_id]`. -/
def deleteOwnBooks (own : BookScores) (acc : BookScores) : BookScores :=
  own.foldl (fun a p => dictDelete a p.1) acc

/-- `RecommendationEngine._get_book_scores_of_users_who_read_the_same_books`.
The cache-invalidation prologue only deletes the seed user's cached pages (a
no-op on scores, the page oracle already models the post-invalidation
fetches) and is omitted. Note the source calls
`self._get_users_book_scores(own_user_id, num_review_pages_to_scrape)`:
`num_review_pages_to_scrape = 2` is passed positionally into the
`minimum_review_score` parameter, so the seed scan runs with minimum rating 2
and the default 2 pages. -/
def getBookScoresOfUsersWhoReadTheSameBooks (pages : ℕ → ℕ → ReviewPage)
    (likedOracle : String → List ℕ) (ownUserId : ℕ) : Except Err BookScores :=
  match (getUsersBookScores pages ownUserId 2 2).1 with
  | .error e => .error e
  | .ok own => .ok (deleteOwnBooks own (expandOwnBooks pages likedOracle own []))

/-- The loop of `RecommendationEngine._filter_book_scores`: `filterOracle`
stands for constructing `Book(book_id, ...)` and evaluating
`book_filter(book, logger)`, either of which can raise (`.error`). An
exception is caught and the candidate skipped; a rejected candidate is
skipped; an accepted candidate is stored, and the loop breaks once
`len(filtered_book_scores) >= max_books`. -/
def filterBookScoresLoop (filterOracle : String → Except Err Bool) (maxBooks : ℕ) :
    BookScores → BookScores → BookScores
  | [], acc => acc
  | (bookId, score) :: rest, acc =>
      match filterOracle bookId with
      | .error _ => filterBookScoresLoop filterOracle maxBooks rest acc
      | .ok keep =>
          if keep then
            let acc2 := dictSet acc bookId score
            if maxBooks ≤ acc2.length then acc2
            else filterBookScoresLoop filterOracle maxBooks rest acc2
          else filterBookScoresLoop filterOracle maxBooks rest acc

/-- `RecommendationEngine._filter_book_scores(max_books, book_scores,
book_filter)`. -/
def filterBookScores (filterOracle : String → Except Err Bool) (maxBooks : ℕ)
    (bookScores : BookScores) : BookScores :=
  filterBookScoresLoop filterOracle maxBooks bookScores []

/-- Whether `filterOracle` accepts a candidate without raising. -/
def acceptedBy (filterOracle : String → Except Err Bool) (p : String × BookScore) : Bool :=
  match filterOracle p.1 with
  | .ok keep => keep
  | .error _ => false

/-- One `.listWithDividers__item` row of a series listing, reduced to the
facts `get_series_book_ids` inspects: the `h3` title text and the `href`s of
`a[href*="/book/show/"]`. -/
structure SeriesRow where
  title : String
  bookShowHrefs : List String
  deriving DecidableEq, Repr

/-- The body of the regex `^Book \d(.\d)?$` from `get_series_book_ids`,
fully anchored on a list of characters: literally `Book `, one digit, then
optionally one arbitrary non-newline character followed by one digit. The
dot in the source pattern is unescaped, so it matches any character except a
newline. (Python `\d` also accepts non-ASCII decimal digits; the labels at
issue are ASCII, where `Char.isDigit` agrees.) -/
def seriesTitleMatchCore : List Char → Bool
  | 'B' :: 'o' :: 'o' :: 'k' :: ' ' :: rest =>
      match rest with
      | [d] => d.isDigit
      | [d, c, e] => d.isDigit && decide (c ≠ '\n') && e.isDigit
      | _ => false
  | _ => false

/-- `re.match(r"^Book \d(.\d)?$", title)` as a Boolean: `$` also matches just
before a single trailing newline. -/
def seriesTitleMatches (title : String) : Bool :=
  seriesTitleMatchCore title.data ||
    (title.data.getLast? == some '\n' && seriesTitleMatchCore title.data.dropLast)

/-- The row loop of `Book.get_series_book_ids`: for each row whose title
matches the regex, add the first `/book/show/` href (`IndexError` if a
matching row has none). The Python code accumulates into a set; the list
returned here records the sequence of `add` calls. -/
def collectSeriesBookIds : List SeriesRow → Except Err (List String)
  | [] => .ok []
  | row :: rest =>
      if seriesTitleMatches row.title then
        match row.bookShowHrefs with
        | [] => .error .indexError
        | href :: _ =>
            match collectSeriesBookIds rest with
            | .error e => .error e
            | .ok r => .ok (href :: r)
      else collectSeriesBookIds rest

/-- Concrete page oracle: the seed user's first review page holds a single
row rated "did not like it" (rating 1); every other page is empty. -/
def pagesSeedRatedOne : ℕ → ℕ → ReviewPage := fun _ pageNr =>
  if pageNr = 1 then
    { isPrivateProfile := false
      signInMarker := false
      reviews := [{ ratingSpanTitle := some (some "did not like it")
                    bookShowHrefs := ["https://site/book/show/111.one"] }] }
  else { isPrivateProfile := false, signInMarker := false, reviews := [] }

/-- Concrete page oracle: every review page of every user carries the
"Sign in" marker of an invalid/expired session. -/
def pagesSignedOut : ℕ → ℕ → ReviewPage := fun _ _ =>
  { isPrivateProfile := false, signInMarker := true, reviews := [] }

/-- Concrete page oracle for the aggregation scenario: user 7 (the seed)
rated book 111 with "it was amazing"; user 21 (a co-reader) rated books 111
and 222; other pages are empty. -/
def pagesAggregation : ℕ → ℕ → ReviewPage := fun userId pageNr =>
  if userId = 7 ∧ pageNr = 1 then
    { isPrivateProfile := false
      signInMarker := false
      reviews := [{ ratingSpanTitle := some (some "it was amazing")
                    bookShowHrefs := ["https://site/book/show/111.one"] }] }
  else if userId = 21 ∧ pageNr = 1 then
    { isPrivateProfile := false
      signInMarker := false
      reviews := [{ ratingSpanTitle := some (some "really liked it")
                    bookShowHrefs := ["https://site/book/show/111.one"] },
                  { ratingSpanTitle := some (some "it was amazing")
                    bookShowHrefs := ["https://site/book/show/222.two"] }] }
  else { isPrivateProfile := false, signInMarker := false, reviews := [] }

/-- Concrete co-reader oracle for the aggregation scenario: user 21 liked
book 111. -/
def likedAggregation : String → List ℕ := fun bookId =>
  if bookId = "111.one" then [21] else []

/-- Concrete filter oracle: raises on candidate "err", rejects candidate
"no", accepts everything else. -/
def filterOracleExample : String → Except Err Bool := fun bookId =>
  if bookId = "err" then .error .keyError
  else if bookId = "no" then .ok false
  else .ok true

/-- C1: `merge` is commutative and associative and `BookScore(0, 0)` is a
right identity, elementwise sums being commutative/associative with unit 0. -/
theorem bookScore_merge_comm_assoc_identity (a b c : BookScore) :
    a.merge b = b.merge a ∧
    (a.merge b).merge c = a.merge (b.merge c) ∧
    a.merge ⟨0, 0⟩ = a := by
  refine ⟨?_, ?_, ?_⟩ <;>
    simp [BookScore.merge] <;>
    constructor <;> ring

/-- `dictSet` affects only the written key. -/
theorem dictLookup_dictSet (d : BookScores) (k k' : String) (v : BookScore) :
    dictLookup (dictSet d k v) k' = if k = k' then some v else dictLookup d k' := by
  induction d with
  | nil => simp [dictSet, dictLookup]
  | cons p rest ih =>
      obtain ⟨k0, v0⟩ := p
      by_cases h0 : k0 = k
      · subst h0
        by_cases h1 : k0 = k'
        · subst h1; simp [dictSet, dictLookup]
        · simp [dictSet, dictLookup, h1]
      · by_cases h1 : k0 = k'
        · subst h1
          have : ¬ k = k0 := fun h => h0 h.symm
          simp [dictSet, dictLookup, h0, this]
        · simp [dictSet, dictLookup, h0, h1, ih]

/-- `dictDelete` removes exactly the deleted key. -/
theorem dictLookup_dictDelete (d : BookScores) (b k : String) :
    dictLookup (dictDelete d b) k = if k = b then none else dictLookup d k := by
  induction d with
  | nil => simp [dictDelete, dictLookup]
  | cons p rest ih =>
      obtain ⟨k0, v0⟩ := p
      by_cases h0 : k0 = b
      · subst h0
        by_cases h1 : k0 = k
        · subst h1; simpa [dictDelete, dictLookup] using ih
        · simpa [dictDelete, dictLookup, h1] using ih
      · by_cases h1 : k0 = k
        · subst h1
          have : ¬ k0 = b := h0
          simp [dictDelete, dictLookup, this]
        · simpa [dictDelete, dictLookup, h0, h1] using ih

/-- A key absent before the removal loop stays absent. -/
theorem dictLookup_deleteOwnBooks_of_none (own : BookScores) (acc : BookScores)
    (k : String) (h : dictLookup acc k = none) :
    dictLookup (deleteOwnBooks own acc) k = none := by
  induction own generalizing acc with
  | nil => simpa [deleteOwnBooks] using h
  | cons p rest ih =>
      show dictLookup (deleteOwnBooks rest (dictDelete acc p.1)) k = none
      apply ih
      rw [dictLookup_dictDelete]
      by_cases hk : k = p.1 <;> simp [hk, h]

/-- Every key of `own` is absent after the removal loop. -/
theorem dictLookup_deleteOwnBooks (own : BookScores) (acc : BookScores)
    (k : String) (hk : k ∈ own.map Prod.fst) :
    dictLookup (deleteOwnBooks own acc) k = none := by
  induction own generalizing acc with
  | nil => simp at hk
  | cons p rest ih =>
      show dictLookup (deleteOwnBooks rest (dictDelete acc p.1)) k = none
      rcases List.mem_map.mp hk with ⟨q, hq, hqk⟩
      rcases List.mem_cons.mp hq with hq1 | hq2
      · subst hq1
        apply dictLookup_deleteOwnBooks_of_none
        rw [dictLookup_dictDelete, hqk]
        simp
      · exact ih _ (List.mem_map.mpr ⟨q, hq2, hqk⟩)

/-- `merge_book_scores` touches only the keys of its argument. -/
theorem dictLookup_mergeBookScores (a b : BookScores) (k : String)
    (hk : k ∉ b.map Prod.fst) :
    dictLookup (mergeBookScores a b) k = dictLookup a k := by
  induction b generalizing a with
  | nil => rfl
  | cons p rest ih =>
      obtain ⟨k0, v0⟩ := p
      have hk0 : ¬ k0 = k := by
        intro h; exact hk (by simp [h])
      have hrest : k ∉ rest.map Prod.fst := by
        intro h; exact hk (by simp [h])
      show dictLookup (mergeBookScores (dictSet a k0 _) rest) k = dictLookup a k
      rw [ih _ hrest, dictLookup_dictSet]
      simp [hk0]

/-- C4: whatever the page and co-reader oracles return, once aggregation
completes successfully no key of the seed user's own scanned scores
(`own_book_scores`, scanned exactly as the source scans them) is a key of
the returned accumulator: the final removal loop deletes every one of them. -/
theorem aggregation_excludes_own_books (pages : ℕ → ℕ → ReviewPage)
    (likedOracle : String → List ℕ) (ownUserId : ℕ) (own r : BookScores) (k : String)
    (hOwn : (getUsersBookScores pages ownUserId 2 2).1 = .ok own)
    (hAgg : getBookScoresOfUsersWhoReadTheSameBooks pages likedOracle ownUserId = .ok r)
    (hk : k ∈ own.map Prod.fst) :
    dictLookup r k = none := by
  unfold getBookScoresOfUsersWhoReadTheSameBooks at hAgg
  rw [hOwn] at hAgg
  simp only [] at hAgg
  have hr : deleteOwnBooks own (expandOwnBooks pages likedOracle own []) = r :=
    Except.ok.inj hAgg
  rw [← hr]
  exact dictLookup_deleteOwnBooks own _ k hk

/-- C4 witness: in the concrete aggregation scenario the seed's book
`111.one` is removed and only the co-reader's other book `222.two` remains. -/
theorem aggregation_excludes_own_books_witness :
    dictLookup [("222.two", ⟨5, 1⟩)] "111.one" = none :=
  aggregation_excludes_own_books pagesAggregation likedAggregation 7
    [("111.one", ⟨5, 1⟩)] [("222.two", ⟨5, 1⟩)] "111.one" (by decide) (by decide)
    (by simp)

/-- C10: `merge_book_scores(a, b)` changes only the entries of `a` whose book
id is a key of `b`; lookups of every other key are unchanged. -/
theorem mergeBookScores_frame (a b : BookScores) (k : String)
    (hk : k ∉ b.map Prod.fst) :
    dictLookup (mergeBookScores a b) k = dictLookup a k :=
  dictLookup_mergeBookScores a b k hk

/-- C10 witness: merging `{x: (4,1)}` into `{w: (2,1), x: (3,1)}` leaves the
entry `w`, whose key is not in the argument, unchanged. -/
theorem mergeBookScores_frame_witness :
    dictLookup (mergeBookScores [("w", ⟨2, 1⟩), ("x", ⟨3, 1⟩)] [("x", ⟨4, 1⟩)]) "w" =
      dictLookup [("w", ⟨2, 1⟩), ("x", ⟨3, 1⟩)] "w" :=
  mergeBookScores_frame [("w", ⟨2, 1⟩), ("x", ⟨3, 1⟩)] [("x", ⟨4, 1⟩)] "w" (by decide)

/-- C5 (code bug): `_get_book_scores_of_users_who_read_the_same_books` calls
`self._get_users_book_scores(own_user_id, num_review_pages_to_scrape)`, so
the page count 2 is passed positionally into `minimum_review_score`. On a
seed user whose review page holds one row rated "did not like it" (rating 1),
the seed scan the source performs (minimum rating 2) returns no score, while
the scan the claim describes (`minRating=1`, `pages=2`) returns the book;
consequently the rating-1 book also survives aggregation as a candidate of a
co-reader, although step 5 of the spec would have removed it. -/
theorem seed_scan_drops_rating_one_rows :
    (getUsersBookScores pagesSeedRatedOne 7 2 2).1 = .ok [] ∧
    (getUsersBookScores pagesSeedRatedOne 7 1 2).1 = .ok [("111.one", ⟨1, 1⟩)] ∧
    getBookScoresOfUsersWhoReadTheSameBooks pagesSeedRatedOne (fun _ => []) 7 =
      .ok [] := by
  refine ⟨by decide, by decide, by decide⟩

/-- C9 (code bug): the pattern in `get_series_book_ids` is
`^Book \d(.\d)?$` with an unescaped dot, so the range label "Book 1-3" —
which the code's own comment says should be excluded — matches and its row's
book link is collected; meanwhile a multi-digit position such as "Book 10"
does not match, although the claim admits an arbitrary integer. -/
theorem series_regex_matches_range_label :
    seriesTitleMatches "Book 1-3" = true ∧
    seriesTitleMatches "Book 10" = false ∧
    seriesTitleMatches "Book 1.5" = true ∧
    seriesTitleMatches "Book 1" = true ∧
    collectSeriesBookIds [⟨"Book 1-3", ["/book/show/42-x"]⟩] = .ok ["/book/show/42-x"] := by
  refine ⟨by decide, by decide, by decide, by decide, by decide⟩

/-- C6 counterexample: a review row carrying the unrecognized label "meh" is
not silently excluded — the scan of a page containing it raises `KeyError`
(`rating_map[str(title)]` with a missing key) instead of returning scores. -/
theorem unknown_label_not_silently_excluded :
    processRows 1 [⟨some (some "meh"), ["site/book/show/9.x"]⟩] [] =
      .error .keyError := by decide

/-- C6 amended: the rating-label mapping is total over the five defined
labels, mapping them bijectively to 1..5; but a review row carrying any other
label raises `KeyError` from `_get_rating` (aborting that user's scan) rather
than being silently excluded. Only rows with no rating span or no title are
silently skipped. -/
theorem rating_label_mapping_total_unknown_raises (t : String) (hrefs : List String)
    (minS : ℤ) (acc : BookScores) (h : ratingMap.lookup t = none) :
    (ratingMap.lookup "did not like it" = some 1 ∧
     ratingMap.lookup "it was ok" = some 2 ∧
     ratingMap.lookup "liked it" = some 3 ∧
     ratingMap.lookup "really liked it" = some 4 ∧
     ratingMap.lookup "it was amazing" = some 5) ∧
    getRating ⟨some (some t), hrefs⟩ = .error .keyError ∧
    processRows minS [⟨some (some t), hrefs⟩] acc = .error .keyError ∧
    processRows minS [⟨none, hrefs⟩] acc = .ok acc ∧
    processRows minS [⟨some none, hrefs⟩] acc = .ok acc := by
  refine ⟨by decide, ?_, ?_, by simp [processRows, getRating], by simp [processRows, getRating]⟩
  · simp [getRating, h]
  · simp [processRows, getRating, h]

/-- C6 witness: the amended behavior at the concrete unknown label "meh". -/
theorem rating_label_mapping_total_unknown_raises_witness :
    (ratingMap.lookup "did not like it" = some 1 ∧
     ratingMap.lookup "it was ok" = some 2 ∧
     ratingMap.lookup "liked it" = some 3 ∧
     ratingMap.lookup "really liked it" = some 4 ∧
     ratingMap.lookup "it was amazing" = some 5) ∧
    getRating ⟨some (some "meh"), []⟩ = .error .keyError ∧
    processRows 1 [⟨some (some "meh"), []⟩] [] = .error .keyError ∧
    processRows 1 [⟨none, []⟩] [] = .ok [] ∧
    processRows 1 [⟨some none, []⟩] [] = .ok [] :=
  rating_label_mapping_total_unknown_raises "meh" [] 1 [] (by decide)

/-- C7 counterexample: with every page of every user marked "Sign in"
(invalid session), the scan of co-reader 5 raises the authentication error,
yet `_get_book_scores_of_users` catches it like any per-co-reader failure and
returns normally with an empty accumulator — the error does not propagate
from the batch caller and does not abort the run. -/
theorem auth_error_caught_in_batch :
    (getUsersBookScores pagesSignedOut 5 1 2).1 = .error .notLoggedIn ∧
    getBookScoresOfUsers pagesSignedOut [5] = [] := by
  refine ⟨by decide, by decide⟩

/-- C7 amended: when a fetched review page indicates an invalid session, the
scan deletes that page's cache entry and raises the fatal authentication
error; the error propagates from the seed user's own scan (aborting the
run), but inside the batch loop of `_get_book_scores_of_users` the bare
`except Exception` catches it and the co-reader is merely skipped. -/
theorem auth_error_invalidates_and_raises_but_batch_catches
    (pages : ℕ → ℕ → ReviewPage) (uid : ℕ) (minS : ℤ) (numP : ℕ)
    (rest : List ℕ) (acc : BookScores) (liked : String → List ℕ)
    (h1 : (pages uid 1).isPrivateProfile = false)
    (h2 : (pages uid 1).signInMarker = true)
    (h3 : 1 ≤ numP) :
    getUsersBookScores pages uid minS numP =
      (.error .notLoggedIn, [reviewPagePath uid 1]) ∧
    getBookScoresOfUsersLoop pages (uid :: rest) acc =
      getBookScoresOfUsersLoop pages rest acc ∧
    getBookScoresOfUsersWhoReadTheSameBooks pages liked uid = .error .notLoggedIn := by
  obtain ⟨k, rfl⟩ : ∃ k, numP = k + 1 := ⟨numP - 1, by omega⟩
  refine ⟨?_, ?_, ?_⟩
  · simp [getUsersBookScores, scanPages, h1, h2]
  · simp [getBookScoresOfUsersLoop, getUsersBookScores, scanPages, h1, h2]
  · simp [getBookScoresOfUsersWhoReadTheSameBooks, getUsersBookScores, scanPages, h1, h2]

/-- C7 witness: the amended behavior at the concrete signed-out oracle. -/
theorem auth_error_invalidates_and_raises_but_batch_catches_witness :
    getUsersBookScores pagesSignedOut 5 1 2 =
      (.error .notLoggedIn, [reviewPagePath 5 1]) ∧
    getBookScoresOfUsersLoop pagesSignedOut [5, 8] [] =
      getBookScoresOfUsersLoop pagesSignedOut [8] [] ∧
    getBookScoresOfUsersWhoReadTheSameBooks pagesSignedOut (fun _ => []) 5 =
      .error .notLoggedIn :=
  auth_error_invalidates_and_raises_but_batch_catches pagesSignedOut 5 1 2 [8] []
    (fun _ => []) rfl rfl (by decide)

/-- Setting a fresh key appends the new entry at the end. -/
theorem dictSet_eq_append (d : BookScores) (k : String) (v : BookScore)
    (h : dictLookup d k = none) : dictSet d k v = d ++ [(k, v)] := by
  induction d with
  | nil => rfl
  | cons p rest ih =>
      obtain ⟨k0, v0⟩ := p
      by_cases h0 : k0 = k
      · subst h0; simp [dictLookup] at h
      · simp only [dictLookup, h0, if_neg h0, ite_false] at h ⊢
        simp [dictSet, h0, ih h]

/-- Appending an entry with a different key does not create a lookup. -/
theorem dictLookup_append_none (d : BookScores) (k0 : String) (v0 : BookScore)
    (k : String) (h : dictLookup d k = none) (hne : ¬ k0 = k) :
    dictLookup (d ++ [(k0, v0)]) k = none := by
  induction d with
  | nil => simp [dictLookup, hne]
  | cons p rest ih =>
      obtain ⟨k1, v1⟩ := p
      by_cases h1 : k1 = k
      · simp [dictLookup, h1] at h
      · simp only [dictLookup, h1, ite_false, if_neg h1] at h ⊢
        exact ih h

/-- The filter loop keeps, in input order, the accepted candidates until the
cap is reached: starting from an accumulator `acc` with fewer than
`maxBooks` entries whose keys are disjoint from the (duplicate-free)
remaining input, it returns `acc` extended by the first
`maxBooks - acc.length` accepted remaining candidates. -/
theorem filterBookScoresLoop_eq (filterOracle : String → Except Err Bool)
    (maxBooks : ℕ) (items acc : BookScores)
    (hnd : (items.map Prod.fst).Nodup)
    (hdisj : ∀ p ∈ items, dictLookup acc p.1 = none)
    (hlen : acc.length < maxBooks) :
    filterBookScoresLoop filterOracle maxBooks items acc =
      acc ++ (items.filter (acceptedBy filterOracle)).take (maxBooks - acc.length) := by
  induction items generalizing acc with
  | nil => simp [filterBookScoresLoop]
  | cons p rest ih =>
      obtain ⟨bookId, score⟩ := p
      have hnd_rest : (rest.map Prod.fst).Nodup := hnd.of_cons
      have hfresh : dictLookup acc bookId = none :=
        hdisj (bookId, score) (List.mem_cons_self _ _)
      have hbid_not_rest : ∀ q ∈ rest, ¬ q.1 = bookId := by
        intro q hq hqeq
        have : bookId ∈ rest.map Prod.fst := List.mem_map.mpr ⟨q, hq, hqeq⟩
        exact (List.nodup_cons.mp hnd).1 this
      show (match filterOracle bookId with
            | .error _ => filterBookScoresLoop filterOracle maxBooks rest acc
            | .ok keep =>
                if keep then
                  let acc2 := dictSet acc bookId score
                  if maxBooks ≤ acc2.length then acc2
                  else filterBookScoresLoop filterOracle maxBooks rest acc2
                else filterBookScoresLoop filterOracle maxBooks rest acc) = _
      rcases horacle : filterOracle bookId with e | keep
      · have hacc : acceptedBy filterOracle (bookId, score) = false := by
          simp [acceptedBy, horacle]
        simp only [hacc, List.filter_cons, Bool.false_eq_true, ite_false]
        exact ih acc hnd_rest (fun q hq => hdisj q (List.mem_cons_of_mem _ hq)) hlen
      · rcases keep with _ | _
        · have hacc : acceptedBy filterOracle (bookId, score) = false := by
            simp [acceptedBy, horacle]
          simp only [hacc, List.filter_cons, Bool.false_eq_true, ite_false]
          exact ih acc hnd_rest (fun q hq => hdisj q (List.mem_cons_of_mem _ hq)) hlen
        · have hacc : acceptedBy filterOracle (bookId, score) = true := by
            simp [acceptedBy, horacle]
          have happ : dictSet acc bookId score = acc ++ [(bookId, score)] :=
            dictSet_eq_append acc bookId score hfresh
          simp only [hacc, List.filter_cons, ite_true, happ]
          by_cases hcap : maxBooks ≤ acc.length + 1
          · have hm : maxBooks = acc.length + 1 := by omega
            have htake : maxBooks - acc.length = 1 := by omega
            simp [List.length_append, hcap, htake, hm]
          · have hlen2 : (acc ++ [(bookId, score)]).length < maxBooks := by
              simp [List.length_append]; omega
            have hcap2 : ¬ maxBooks ≤ (acc ++ [(bookId, score)]).length := by
              simp [List.length_append]; omega
            simp only [hcap2, ite_false]
            rw [ih (acc ++ [(bookId, score)]) hnd_rest
                (fun q hq =>
                  dictLookup_append_none acc bookId score q.1
                    (hdisj q (List.mem_cons_of_mem _ hq))
                    (fun h => hbid_not_rest q hq h.symm))
                hlen2]
            have hsub : maxBooks - acc.length = (maxBooks - (acc.length + 1)) + 1 := by
              omega
            simp [List.length_append, hsub, List.take_succ_cons]

/-- C8 counterexample: with `max_books = 0` the loop checks the cap only
after an acceptance, so one accepted candidate yields a result of length 1,
exceeding `maxResults`. -/
theorem filter_cap_zero_counterexample :
    (filterBookScores (fun _ => .ok true) 0 [("a", ⟨5, 1⟩)]).length = 1 := by decide

/-- C8 amended: for `maxResults ≥ 1` (and a candidate map, whose keys are
unique), `_filter_book_scores` returns exactly the first `maxResults`
accepted candidates in input order; hence at most `maxResults` entries and
an order-preserving subsequence of the input, with candidates whose filter
evaluation raises skipped without counting against the cap. (With
`maxResults = 0` a first accepted candidate is still returned.) -/
theorem filterBookScores_cap_and_subsequence (filterOracle : String → Except Err Bool)
    (maxBooks : ℕ) (d : BookScores)
    (hnd : (d.map Prod.fst).Nodup) (hmax : 1 ≤ maxBooks) :
    filterBookScores filterOracle maxBooks d =
      (d.filter (acceptedBy filterOracle)).take maxBooks ∧
    (filterBookScores filterOracle maxBooks d).length ≤ maxBooks ∧
    List.Sublist (filterBookScores filterOracle maxBooks d) d := by
  have heq : filterBookScores filterOracle maxBooks d =
      (d.filter (acceptedBy filterOracle)).take maxBooks := by
    have h := filterBookScoresLoop_eq filterOracle maxBooks d []
      hnd (fun p _ => rfl) (by simp only [List.length_nil]; omega)
    simpa [filterBookScores] using h
  refine ⟨heq, ?_, ?_⟩
  · rw [heq]
    simp [List.length_take]
  · rw [heq]
    exact (List.take_sublist _ _).trans (List.filter_sublist _)

/-- C8 witness: the amended statement at a concrete run — the erroring
candidate "err" and the rejected candidate "no" are skipped without counting,
and the two accepted candidates "x" and "y" are returned in input order. -/
theorem filterBookScores_cap_and_subsequence_witness :
    filterBookScores filterOracleExample 2
        [("x", ⟨5, 1⟩), ("err", ⟨5, 1⟩), ("no", ⟨4, 1⟩), ("y", ⟨4, 1⟩), ("z", ⟨5, 1⟩)] =
      (List.filter (acceptedBy filterOracleExample)
        [("x", ⟨5, 1⟩), ("err", ⟨5, 1⟩), ("no", ⟨4, 1⟩), ("y", ⟨4, 1⟩), ("z", ⟨5, 1⟩)]).take 2 ∧
    (filterBookScores filterOracleExample 2
        [("x", ⟨5, 1⟩), ("err", ⟨5, 1⟩), ("no", ⟨4, 1⟩), ("y", ⟨4, 1⟩), ("z", ⟨5, 1⟩)]).length ≤ 2 ∧
    List.Sublist
      (filterBookScores filterOracleExample 2
        [("x", ⟨5, 1⟩), ("err", ⟨5, 1⟩), ("no", ⟨4, 1⟩), ("y", ⟨4, 1⟩), ("z", ⟨5, 1⟩)])
      [("x", ⟨5, 1⟩), ("err", ⟨5, 1⟩), ("no", ⟨4, 1⟩), ("y", ⟨4, 1⟩), ("z", ⟨5, 1⟩)] :=
  filterBookScores_cap_and_subsequence filterOracleExample 2
    [("x", ⟨5, 1⟩), ("err", ⟨5, 1⟩), ("no", ⟨4, 1⟩), ("y", ⟨4, 1⟩), ("z", ⟨5, 1⟩)]
    (by decide) (by decide)

/-- When the comprehension of `get_recommendations` completes without a
`ZeroDivisionError`, it returns exactly the items passing the cutoff, in
order, and every inspected item had a nonzero review count. -/
theorem collectRecommendations_ok (m : ℤ) (l r : BookScores)
    (h : collectRecommendations m l = .ok r) :
    r = l.filter (passesMinimumRating m) ∧ ∀ p ∈ l, p.2.numberOfReviews ≠ 0 := by
  induction l generalizing r with
  | nil =>
      have hr : r = [] := by
        simpa [collectRecommendations] using h.symm
      subst hr; simp
  | cons p rest ih =>
      by_cases h0 : p.2.numberOfReviews = 0
      · simp [collectRecommendations, h0] at h
      · by_cases hp : passesMinimumRating m p
        · rcases hrec : collectRecommendations m rest with e | r0
          · simp [collectRecommendations, h0, hp, hrec] at h
          · simp only [collectRecommendations, h0, ite_false, if_neg h0, hp, ite_true,
              if_pos hp, hrec] at h
            have hr : r = p :: r0 := (Except.ok.inj h).symm
            obtain ⟨hfil, hall⟩ := ih r0 hrec
            subst hr
            refine ⟨by simp [List.filter_cons, hp, hfil], ?_⟩
            intro q hq
            rcases List.mem_cons.mp hq with hq1 | hq2
            · subst hq1; exact h0
            · exact hall q hq2
        · simp only [collectRecommendations, h0, ite_false, if_neg h0, hp,
            Bool.false_eq_true, ite_false] at h
          obtain ⟨hfil, hall⟩ := ih r h
          refine ⟨by simp [List.filter_cons, hp, hfil], ?_⟩
          intro q hq
          rcases List.mem_cons.mp hq with hq1 | hq2
          · subst hq1; exact h0
          · exact hall q hq2

/-- Composition of two filters as one filter. -/
theorem filter_filter_bool {α : Type} (p q : α → Bool) (l : List α) :
    (l.filter p).filter q = l.filter (fun a => p a && q a) := by
  induction l with
  | nil => rfl
  | cons x rest ih =>
      by_cases hp : p x <;> by_cases hq : q x <;>
        simp [List.filter_cons, hp, hq, ih]

/-- Inserting into a sorted tail commutes with filtering by a predicate that
pins the sort key: the inserted element passes the elements with strictly
smaller keys, none of which can satisfy the predicate when it does. -/
theorem filter_orderedInsert_keyConst (q : (String × BookScore) → Bool) (k : ℤ)
    (hq : ∀ p, q p = true → pyKey p = k)
    (x : String × BookScore) (l : List (String × BookScore)) :
    (List.orderedInsert keyLe x l).filter q =
      if q x then x :: l.filter q else l.filter q := by
  induction l with
  | nil =>
      by_cases hqx : q x <;> simp [List.orderedInsert, List.filter_cons, hqx]
  | cons y l ih =>
      by_cases hxy : keyLe x y
      · simp only [List.orderedInsert, if_pos hxy]
        by_cases hqx : q x <;> simp [List.filter_cons, hqx]
      · simp only [List.orderedInsert, if_neg hxy]
        by_cases hqx : q x
        · have hqy : q y = false := by
            rcases hy : q y with - | -
            · rfl
            · exact absurd (by simp [keyLe, hq x hqx, hq y hy]) hxy
          simp [List.filter_cons, hqy, ih, hqx]
        · by_cases hqy : q y <;> simp [List.filter_cons, hqy, hqx, ih]

/-- The stable sort of `get_recommendations` does not reorder the elements
selected by any predicate that pins the sort key. -/
theorem filter_insertionSort_keyConst (q : (String × BookScore) → Bool) (k : ℤ)
    (hq : ∀ p, q p = true → pyKey p = k) (l : List (String × BookScore)) :
    (List.insertionSort keyLe l).filter q = l.filter q := by
  induction l with
  | nil => rfl
  | cons x l ih =>
      show (List.orderedInsert keyLe x (List.insertionSort keyLe l)).filter q = _
      rw [filter_orderedInsert_keyConst q k hq x (List.insertionSort keyLe l), ih]
      by_cases hqx : q x <;> simp [List.filter_cons, hqx]

/-- C2: for a score map obeying the data-model invariant `reviewCount ≥ 0`,
every entry of a successfully returned `get_recommendations(minAvgRating)`
result has average rating at least `minAvgRating` and at least one review
(a zero count would instead raise `ZeroDivisionError`, so the call would not
return a result at all). -/
theorem getRecommendations_entries_meet_cutoff (d : BookScores) (m : ℤ)
    (r : BookScores) (p : String × BookScore)
    (hpos : ∀ q ∈ d, 0 ≤ q.2.numberOfReviews)
    (h : getRecommendations d m = .ok r) (hp : p ∈ r) :
    (m : ℚ) ≤ (p.2.totalScore : ℚ) / (p.2.numberOfReviews : ℚ) ∧
    1 ≤ p.2.numberOfReviews := by
  obtain ⟨hfil, hall⟩ := collectRecommendations_ok m _ r h
  have hp2 : p ∈ (List.insertionSort keyLe d).filter (passesMinimumRating m) :=
    hfil ▸ hp
  have hmem : p ∈ List.insertionSort keyLe d := List.mem_of_mem_filter hp2
  have hpass : passesMinimumRating m p = true := List.of_mem_filter hp2
  have hmemd : p ∈ d := (List.perm_insertionSort keyLe d).mem_iff.mp hmem
  have hne : p.2.numberOfReviews ≠ 0 := hall p hmem
  have h0 : 0 ≤ p.2.numberOfReviews := hpos p hmemd
  refine ⟨by simpa [passesMinimumRating] using hpass, by omega⟩

/-- C2 witness: at the map `{a: (9,2), b: (2,1)}` with cutoff 4, the entry
`a` of the result has average 4.5 ≥ 4 and review count 2 ≥ 1. -/
theorem getRecommendations_entries_meet_cutoff_witness :
    ((4 : ℤ) : ℚ) ≤ (((9 : ℤ) : ℚ) / ((2 : ℤ) : ℚ)) ∧ (1 : ℤ) ≤ (2 : ℤ) :=
  getRecommendations_entries_meet_cutoff
    [("a", ⟨9, 2⟩), ("b", ⟨2, 1⟩)] 4 [("a", ⟨9, 2⟩)] ("a", ⟨9, 2⟩)
    (by decide)
    (by norm_num [getRecommendations, collectRecommendations, passesMinimumRating,
      List.insertionSort, List.orderedInsert, keyLe, pyKey])
    (by simp)

/-- C3: a successfully returned `get_recommendations` result is ordered by
non-increasing `number_of_reviews`; for every count value `c`, the entries
with that count appear exactly as in the input map's iteration order
(stability of Python's `sorted` under the key `-number_of_reviews`); and the
function is deterministic, so re-running it on the unchanged map yields the
identical result. -/
theorem getRecommendations_sorted_stable_deterministic (d : BookScores) (m : ℤ)
    (r : BookScores) (c : ℤ) (h : getRecommendations d m = .ok r) :
    List.Pairwise (fun a b => b.2.numberOfReviews ≤ a.2.numberOfReviews) r ∧
    r.filter (fun p => p.2.numberOfReviews == c) =
      d.filter (fun p => passesMinimumRating m p && p.2.numberOfReviews == c) ∧
    getRecommendations d m = getRecommendations d m := by
  obtain ⟨hfil, -⟩ := collectRecommendations_ok m _ r h
  refine ⟨?_, ?_, rfl⟩
  · have hs : List.Pairwise keyLe (List.insertionSort keyLe d) :=
      List.sorted_insertionSort keyLe d
    have hsr : List.Pairwise keyLe r := by
      rw [hfil]; exact hs.filter _
    refine hsr.imp ?_
    intro a b hab
    have : -a.2.numberOfReviews ≤ -b.2.numberOfReviews := hab
    omega
  · rw [hfil, filter_filter_bool,
      filter_insertionSort_keyConst
        (fun p => passesMinimumRating m p && p.2.numberOfReviews == c) (-c) ?_ d]
    intro p hp
    have hc : p.2.numberOfReviews = c := by
      have := (Bool.and_eq_true _ _).mp hp
      simpa [pyKey] using this.2
    simp [pyKey, hc]

/-- C3 witness: at the map `{a: (4,1), b: (10,2), c0: (5,1)}` with cutoff 4
the result is `[b, a, c0]` — counts non-increasing, the count-1 entries `a`
and `c0` in their original relative order, and a rerun identical. -/
theorem getRecommendations_sorted_stable_deterministic_witness :
    List.Pairwise (fun a b => b.2.numberOfReviews ≤ a.2.numberOfReviews)
      ([("b", ⟨10, 2⟩), ("a", ⟨4, 1⟩), ("c0", ⟨5, 1⟩)] : BookScores) ∧
    ([("b", ⟨10, 2⟩), ("a", ⟨4, 1⟩), ("c0", ⟨5, 1⟩)] : BookScores).filter
        (fun p => p.2.numberOfReviews == 1) =
      ([("a", ⟨4, 1⟩), ("b", ⟨10, 2⟩), ("c0", ⟨5, 1⟩)] : BookScores).filter
        (fun p => passesMinimumRating 4 p && p.2.numberOfReviews == 1) ∧
    getRecommendations [("a", ⟨4, 1⟩), ("b", ⟨10, 2⟩), ("c0", ⟨5, 1⟩)] 4 =
      getRecommendations [("a", ⟨4, 1⟩), ("b", ⟨10, 2⟩), ("c0", ⟨5, 1⟩)] 4 :=
  getRecommendations_sorted_stable_deterministic
    [("a", ⟨4, 1⟩), ("b", ⟨10, 2⟩), ("c0", ⟨5, 1⟩)] 4
    [("b", ⟨10, 2⟩), ("a", ⟨4, 1⟩), ("c0", ⟨5, 1⟩)] 1
    (by norm_num [getRecommendations, collectRecommendations, passesMinimumRating,
      List.insertionSort, List.orderedInsert, keyLe, pyKey])
